import Mathlib

/-!
Verification of the MCP bridge tool (agentflow/tools/mcp_bridge/tool.py).

The Python class `MCP_Bridge_Tool` is embedded shallowly: the mutable
attributes of the object become the fields of `BridgeState`; the external
collaborators (the stdio transport, the HTTP client, and the remote server)
are modelled by oracles collected in `World`; Python exceptions raised by
those collaborators become explicit outcome constructors, and the try/except
blocks of the source become the corresponding case splits, in source order.
Machine integers are modelled as `Int`/`Nat` (the configured timeout and the
caller override are Python ints; the attempt counter is a Nat since
`range(n)` is empty for non-positive `n`).

Timing model: `asyncio.wait_for` places the deadline around the whole of
`_execute_async`, reconnection included.  Failed connect attempts are
modelled as raising promptly, so during reconnection the deadline is
consumed by the one-second backoff sleeps: the s-th sleep begins strictly
after time s-1 (every attempt takes some positive instant) and ends
strictly after time s, hence an integer deadline T with T ≤ s cancels the
coroutine during sleep number s, after exactly s connect attempts.  Once a
connection is available with k sleeps consumed, the transport call of
duration d (supplied by the world) completes iff k + d ≤ T, and a deadline
landing inside the call cancels it before any state mutation.  A
non-positive effective timeout yields an immediate `TimeoutError` before
the body runs (the body task is cancelled before its first step).
-/

namespace MCPBridge

/-- Metadata kept for one catalogued tool: the value part of the
`_available_tools` dict entries (description and input schema; the schema is
opaque to the bridge and modelled as a string). -/
structure ToolInfo where
  description : String
  input_schema : String
deriving DecidableEq

/-- A typed tool object as returned by the stdio transport `list_tools`
(`tool.name`, `tool.description`, `tool.inputSchema`). -/
structure MCPTool where
  name : String
  description : String
  inputSchema : String
deriving DecidableEq

/-- One entry of the JSON array under the key `tools` in the HTTP
`/tools/list` response body.  Each field is `none` when the key is absent:
a missing `name` raises `KeyError` in the dict comprehension of
`_connect_http`, while `description` and `inputSchema` fall back to the
defaults of `dict.get`. -/
structure HttpToolEntry where
  name : Option String
  description : Option String
  inputSchema : Option String
deriving DecidableEq

/-- Mutable attributes of the `MCP_Bridge_Tool` object after `__init__`:
configuration fields plus connection state (`_session`/`_http_client` are
tracked only as presence booleans, `_available_tools` as an insertion-ordered
association list mirroring a Python dict, `_connection_healthy` as a Bool). -/
structure BridgeState where
  server_type : String
  server_command : Option String
  server_url : Option String
  timeout : Int
  reconnect_attempts : Nat
  session : Bool
  http_client : Bool
  available_tools : List (String × ToolInfo)
  connection_healthy : Bool
deriving DecidableEq

/-- Python dict insertion: assigning an existing key keeps its position and
replaces the value, a new key is appended. -/
def dictInsert (k : String) (v : ToolInfo) : List (String × ToolInfo) → List (String × ToolInfo)
  | [] => [(k, v)]
  | (k2, v2) :: rest => if k2 = k then (k, v) :: rest else (k2, v2) :: dictInsert k v rest

/-- The dict comprehension building `_available_tools` from a tool list. -/
def mkCatalog (ts : List MCPTool) : List (String × ToolInfo) :=
  ts.foldl (fun d t => dictInsert t.name ⟨t.description, t.inputSchema⟩ d) []

/-- Parsing of the HTTP tool-list payload by the dict comprehension in
`_connect_http`: `tool["name"]` raises (`none` overall) when a `name` key is
missing; `tool.get("description", "")` and `tool.get("inputSchema", {})`
default otherwise (the schema default is rendered as a string). -/
def parseHttpEntries : List HttpToolEntry → Option (List MCPTool)
  | [] => some []
  | e :: es =>
    match e.name with
    | none => none
    | some n =>
      match parseHttpEntries es with
      | none => none
      | some ts => some (⟨n, e.description.getD "", e.inputSchema.getD "\x7b\x7d"⟩ :: ts)

/-- Behaviour of one stdio connect attempt by the external collaborators:
whether the transport construction succeeds, whether `initialize` succeeds,
and the result of `list_tools` (`none` meaning it raised). -/
structure StdioConnectOracle where
  transportOk : Bool
  initOk : Bool
  listToolsResult : Option (List MCPTool)
deriving DecidableEq

/-- Behaviour of one HTTP connect attempt: whether the client construction
succeeds, and the tool-list response (`none` meaning the POST,
`raise_for_status` or the JSON decode raised). -/
structure HttpConnectOracle where
  clientOk : Bool
  listResult : Option (List HttpToolEntry)
deriving DecidableEq

/-- Outcome of one stdio `call_tool` invocation: either it raised with the
given message, or it returned a response whose content blocks carry the
given texts. -/
inductive StdioCallOutcome where
  | raiseExc (msg : String)
  | resp (content : List String)
deriving DecidableEq

/-- One JSON content block of the HTTP `/tools/call` response
(`none` text meaning the `text` key is absent). -/
structure HttpBlock where
  text : Option String
deriving DecidableEq

/-- Outcome of one HTTP `/tools/call` POST: either it raised (network error
or non-2xx via `raise_for_status`), or a JSON body whose `content` key holds
the given blocks (`none` meaning the key is absent). -/
inductive HttpCallOutcome where
  | raiseExc (msg : String)
  | resp (content : Option (List HttpBlock))
deriving DecidableEq

/-- Arguments mapping passed to a tool call (values opaque). -/
abbrev PyDict := List (String × String)

/-- The external world an execution runs against: the behaviour of the i-th
connect attempt for either transport, the behaviour of the transport call
for given name and arguments, and how long that call takes (time units). -/
structure World where
  stdioConnects : Nat → StdioConnectOracle
  httpConnects : Nat → HttpConnectOracle
  stdioCall : String → PyDict → StdioCallOutcome
  httpCall : String → PyDict → HttpCallOutcome
  callDuration : String → PyDict → Nat

/-- Value extracted from a tool response: the first content block text, or
the literal empty dict the source uses as fallback. -/
inductive PyVal where
  | str (s : String)
  | emptyDict
deriving DecidableEq

/-- The `server_info` dict built by `get_server_info`. -/
structure ServerInfo where
  type : String
  connected : Bool
  available_tools_count : Nat
  cfg_command : Option String
  cfg_url : Option String
  cfg_timeout : Int
deriving DecidableEq

/-- The result dict returned by `execute`: `success`, `result` (only on
success), `error` (only on failure), `tool_name`, `server_info`. -/
structure CallResult where
  success : Bool
  result : Option PyVal
  error : Option String
  tool_name : String
  server_info : ServerInfo
deriving DecidableEq

/-- Observable effects of the reconnection loop: a connect attempt with its
zero-based index, and an `asyncio.sleep` with its duration. -/
inductive Event where
  | connect (i : Nat)
  | sleep (secs : Nat)
deriving DecidableEq

/-- Python exceptions raised by `_validate_config` (the spec calls
`ImportError` a DependencyError and `ValueError` a ConfigurationError). -/
inductive PyExc where
  | importError (msg : String)
  | valueError (msg : String)
deriving DecidableEq

/-- Raw configuration as read from the environment in `__init__`, together
with the availability of the two transport libraries (`MCP_STDIO_AVAILABLE`
and `MCP_HTTP_AVAILABLE`).  `getenv` yields `none` for an unset variable. -/
structure RawConfig where
  server_type : String
  server_command : Option String
  server_url : Option String
  mcp_stdio_available : Bool
  mcp_http_available : Bool
deriving DecidableEq

/-- Python truthiness test `not s` for an optional string: true for an
unset variable and for the empty string. -/
def pyFalsyStr : Option String → Bool
  | none => true
  | some s => s = ""

/-- Embedding of `_validate_config`: a pure function of the raw
configuration (the source only reads attributes and raises; it performs no
network or process activity, so no world oracle is consumed here). -/
def validateConfig (c : RawConfig) : Except PyExc Unit :=
  if c.server_type = "stdio" then
    if c.mcp_stdio_available = false then
      .error (.importError ("MCP stdio client not available. Install with: pip install mcp"))
    else if pyFalsyStr c.server_command then
      .error (.valueError ("MCP_SERVER_COMMAND environment variable is required for stdio servers"))
    else .ok ()
  else if c.server_type = "http" then
    if c.mcp_http_available = false then
      .error (.importError ("httpx not available. Install with: pip install httpx"))
    else if pyFalsyStr c.server_url then
      .error (.valueError ("MCP_SERVER_URL environment variable is required for HTTP servers"))
    else .ok ()
  else
    .error (.valueError ("Invalid MCP_SERVER_TYPE: " ++ c.server_type ++ ". Must be \x27stdio\x27 or \x27http\x27"))

/-- Embedding of `_connect_stdio`: transport construction, then the session
assignment, then `initialize`, then `list_tools`; the catalog is assigned
only after the tool list arrived, and the surrounding try/except turns any
raise into health = unhealthy and `false`. -/
def stdioConnect (o : StdioConnectOracle) (st : BridgeState) : Bool × BridgeState :=
  if o.transportOk = false then (false, { st with connection_healthy := false })
  else if o.initOk = false then (false, { st with session := true, connection_healthy := false })
  else
    match o.listToolsResult with
    | none => (false, { st with session := true, connection_healthy := false })
    | some ts =>
      (true,
       { st with
           session := true
           available_tools := mkCatalog ts
           connection_healthy := true })

/-- Embedding of `_connect_http`: client construction and assignment, then
the `/tools/list` POST, then the dict comprehension over the payload; the
catalog is assigned only if the whole comprehension succeeds. -/
def httpConnect (o : HttpConnectOracle) (st : BridgeState) : Bool × BridgeState :=
  if o.clientOk = false then (false, { st with connection_healthy := false })
  else
    match o.listResult with
    | none => (false, { st with http_client := true, connection_healthy := false })
    | some es =>
      match parseHttpEntries es with
      | none => (false, { st with http_client := true, connection_healthy := false })
      | some ts =>
        (true,
         { st with
             http_client := true
             available_tools := mkCatalog ts
             connection_healthy := true })

/-- Dispatch of one connect attempt on the transport kind, as in
`_ensure_connection` (any kind other than stdio takes the HTTP branch). -/
def connectOnce (w : World) (i : Nat) (st : BridgeState) : Bool × BridgeState :=
  if st.server_type = "stdio" then stdioConnect (w.stdioConnects i) st
  else httpConnect (w.httpConnects i) st

/-- Whether the i-th connect attempt of the world succeeds for the given
transport kind (independent of the bridge state). -/
def attemptSucceeds (w : World) (ty : String) (i : Nat) : Bool :=
  if ty = "stdio" then
    (w.stdioConnects i).transportOk && (w.stdioConnects i).initOk
      && (w.stdioConnects i).listToolsResult.isSome
  else
    (w.httpConnects i).clientOk &&
      (match (w.httpConnects i).listResult with
       | none => false
       | some es => (parseHttpEntries es).isSome)

/-- The reconnection loop of `_ensure_connection` as it executes under the
`asyncio.wait_for` deadline `T`: at most `fuel` attempts starting at index
`i`, returning on the first success, sleeping one time unit after every
failed attempt (also the last one, as in the source).  Failed attempts
raise promptly, so the deadline lands in the backoff sleeps: sleep number
s begins strictly after time s-1 and ends strictly after time s, hence a
deadline T with T ≤ s cancels the coroutine during that sleep (the sleep
event is recorded as started).  A `none` first component reports that
cancellation — the `TimeoutError` caught in `execute`; `some b` is the
loop's own return value. -/
def ensureAux (w : World) (T : Int) :
    Nat → Nat → BridgeState → Option Bool × BridgeState × List Event
  | 0, _, st => (some false, st, [])
  | fuel + 1, i, st =>
    if (connectOnce w i st).1 = true then
      (some true, (connectOnce w i st).2, [Event.connect i])
    else if T ≤ ((i + 1 : Nat) : Int) then
      (none, (connectOnce w i st).2, [Event.connect i, Event.sleep 1])
    else
      ((ensureAux w T fuel (i + 1) (connectOnce w i st).2).1,
       (ensureAux w T fuel (i + 1) (connectOnce w i st).2).2.1,
       Event.connect i :: Event.sleep 1 ::
         (ensureAux w T fuel (i + 1) (connectOnce w i st).2).2.2)

/-- Embedding of `_ensure_connection` executed under the deadline `T`: the
healthy fast path returns true instantly and consumes none of the
deadline; otherwise up to `reconnect_attempts` attempts are made, the
deadline firing during a backoff sleep when the sleeps exhaust it. -/
def ensureConnection (w : World) (T : Int) (st : BridgeState) :
    Option Bool × BridgeState × List Event :=
  if st.connection_healthy = true then (some true, st, [])
  else ensureAux w T st.reconnect_attempts 0 st

/-- Value extraction of `_execute_stdio`:
`result.content[0].text if result.content else` the empty dict. -/
def stdioExec : StdioCallOutcome → Except String PyVal
  | .raiseExc m => .error m
  | .resp [] => .ok .emptyDict
  | .resp (t :: _) => .ok (.str t)

/-- Value extraction of `_execute_http`:
`result_data.get("content", [...])[0].get("text", ...)`; an empty content
list raises `IndexError` at the subscript. -/
def httpExec : HttpCallOutcome → Except String PyVal
  | .raiseExc m => .error m
  | .resp none => .ok .emptyDict
  | .resp (some []) => .error ("list index out of range")
  | .resp (some (b :: _)) =>
    .ok (match b.text with | some t => .str t | none => .emptyDict)

/-- The transport-specific call dispatched on the transport kind, as in
`_execute_async` (the except branch receives the raised message). -/
def callResultE (w : World) (ty : String) (name : String) (args : PyDict) : Except String PyVal :=
  if ty = "stdio" then stdioExec (w.stdioCall name args)
  else httpExec (w.httpCall name args)

/-- Embedding of `get_server_info`. -/
def getServerInfo (st : BridgeState) : ServerInfo :=
  { type := st.server_type
    connected := st.connection_healthy
    available_tools_count := st.available_tools.length
    cfg_command := if st.server_type = "stdio" then st.server_command else none
    cfg_url := if st.server_type = "http" then st.server_url else none
    cfg_timeout := st.timeout }

/-- The keys of the `_available_tools` dict, in insertion order. -/
def keysOf (st : BridgeState) : List String := st.available_tools.map Prod.fst

/-- Hexadecimal digit as produced by Python repr escapes (lowercase). -/
def hexDig (n : Nat) : Char :=
  if n < 10 then Char.ofNat (48 + n) else Char.ofNat (87 + n)

/-- Quote character chosen by Python repr for a string: a double quote when
the string holds a single quote but no double quote, a single quote
otherwise. -/
def pyQuote (s : String) : Char :=
  if '\'' ∈ s.data ∧ '"' ∉ s.data then '"' else '\''

/-- Escape of one character inside a Python string repr with the chosen
quote character: backslash and quote are backslash-escaped; tab, newline
and carriage return use their mnemonic escapes; the other C0 controls, DEL,
the C1 controls (0x80 to 0x9F), the no-break space (0xA0) and the soft
hyphen (0xAD) use a two-digit hex escape; the line and paragraph separators
(U+2028, U+2029) use a four-digit escape; all other characters stand for
themselves.  Python additionally escapes further non-printable code points
above U+00FF (format controls, unassigned and private-use characters); the
theorems below only evaluate this rendering on printable ASCII names (see
`reprPlain`) and on the concrete counterexample, where it is exact. -/
def pyEscChar (q c : Char) : List Char :=
  if c = '\\' then ['\\', '\\']
  else if c = q then ['\\', q]
  else if c = '\t' then ['\\', 't']
  else if c = '\n' then ['\\', 'n']
  else if c = '\r' then ['\\', 'r']
  else if c.toNat < 32 ∨ c.toNat = 127 ∨ (128 ≤ c.toNat ∧ c.toNat ≤ 159)
      ∨ c.toNat = 160 ∨ c.toNat = 173 then
    ['\\', 'x', hexDig (c.toNat / 16 % 16), hexDig (c.toNat % 16)]
  else if c.toNat = 8232 ∨ c.toNat = 8233 then
    ['\\', 'u', hexDig (c.toNat / 4096 % 16), hexDig (c.toNat / 256 % 16),
     hexDig (c.toNat / 16 % 16), hexDig (c.toNat % 16)]
  else [c]

/-- Escaping of a character list with a fixed quote character. -/
def escData (q : Char) : List Char → List Char
  | [] => []
  | c :: cs => pyEscChar q c ++ escData q cs

/-- Python `repr` of a string (quote choice plus per-character escapes). -/
def pyRepr (s : String) : String :=
  ⟨pyQuote s :: (escData (pyQuote s) s.data ++ [pyQuote s])⟩

/-- Python `", ".join` over already-rendered items. -/
def pyJoinComma : List String → String
  | [] => ""
  | [s] => s
  | s :: t :: rest => s ++ ", " ++ pyJoinComma (t :: rest)

/-- Python `str` of a list of strings, as interpolated by the f-string in
the unknown-tool message: brackets around the comma-joined reprs. -/
def pyList (keys : List String) : String :=
  "[" ++ pyJoinComma (keys.map pyRepr) ++ "]"

/-- Message of the connection-exhaustion failure. -/
def connFailedMsg : String := "Failed to connect to MCP server after multiple attempts"

/-- Message of the unknown-tool failure, listing the catalogued names. -/
def unknownToolMsg (name : String) (keys : List String) : String :=
  "Tool \x27" ++ name ++ "\x27 not found on server. Available: " ++ pyList keys

/-- Message of the timeout failure, stating the effective timeout. -/
def timeoutMsg (t : Int) : String :=
  "Tool execution timed out after " ++ toString t ++ " seconds"

/-- Message of the execution-error failure wrapping the raised message. -/
def execErrMsg (e : String) : String := "Tool execution error: " ++ e

/-- Effective timeout `timeout or self.timeout`: Python truthiness sends
`None` and `0` to the configured default and keeps any other value,
including negative ones. -/
def effTimeout (timeout : Option Int) (default : Int) : Int :=
  match timeout with
  | none => default
  | some t => if t = 0 then default else t

/-- Number of connect attempts recorded in a trace. -/
def countConnects : List Event → Nat
  | [] => 0
  | .connect _ :: tr => countConnects tr + 1
  | .sleep _ :: tr => countConnects tr

/-- Number of sleeps recorded in a trace. -/
def countSleeps : List Event → Nat
  | [] => 0
  | .connect _ :: tr => countSleeps tr
  | .sleep _ :: tr => countSleeps tr + 1

/-- Embedding of `execute` (together with `_execute_async`): argument
normalization, effective timeout, then the body under the `asyncio.wait_for`
deadline — connection repair (whose backoff sleeps consume the deadline, a
`none` outcome being the `TimeoutError` cancellation), catalog lookup, the
transport call (which completes iff the sleeps consumed so far plus its
duration fit within the deadline; a cancelled call mutates no state) and
result conversion.  The returned triple is the result dict, the final
object state and the list of reconnection events. -/
def execute (w : World) (st : BridgeState) (tool_name : String)
    (arguments : Option PyDict) (timeout : Option Int) :
    CallResult × BridgeState × List Event :=
  if effTimeout timeout st.timeout ≤ 0 then
    ({ success := false, result := none,
       error := some (timeoutMsg (effTimeout timeout st.timeout)),
       tool_name := tool_name, server_info := getServerInfo st }, st, [])
  else
    match (ensureConnection w (effTimeout timeout st.timeout) st).1 with
    | none =>
      ({ success := false, result := none,
         error := some (timeoutMsg (effTimeout timeout st.timeout)),
         tool_name := tool_name,
         server_info := getServerInfo
           (ensureConnection w (effTimeout timeout st.timeout) st).2.1 },
       (ensureConnection w (effTimeout timeout st.timeout) st).2.1,
       (ensureConnection w (effTimeout timeout st.timeout) st).2.2)
    | some false =>
      ({ success := false, result := none, error := some connFailedMsg,
         tool_name := tool_name,
         server_info := getServerInfo
           (ensureConnection w (effTimeout timeout st.timeout) st).2.1 },
       (ensureConnection w (effTimeout timeout st.timeout) st).2.1,
       (ensureConnection w (effTimeout timeout st.timeout) st).2.2)
    | some true =>
      if (keysOf (ensureConnection w (effTimeout timeout st.timeout) st).2.1).contains
          tool_name = false then
        ({ success := false, result := none,
           error := some (unknownToolMsg tool_name
             (keysOf (ensureConnection w (effTimeout timeout st.timeout) st).2.1)),
           tool_name := tool_name,
           server_info := getServerInfo
             (ensureConnection w (effTimeout timeout st.timeout) st).2.1 },
         (ensureConnection w (effTimeout timeout st.timeout) st).2.1,
         (ensureConnection w (effTimeout timeout st.timeout) st).2.2)
      else if effTimeout timeout st.timeout <
          (countSleeps (ensureConnection w (effTimeout timeout st.timeout) st).2.2 : Int)
            + (w.callDuration tool_name (arguments.getD []) : Int) then
        ({ success := false, result := none,
           error := some (timeoutMsg (effTimeout timeout st.timeout)),
           tool_name := tool_name,
           server_info := getServerInfo
             (ensureConnection w (effTimeout timeout st.timeout) st).2.1 },
         (ensureConnection w (effTimeout timeout st.timeout) st).2.1,
         (ensureConnection w (effTimeout timeout st.timeout) st).2.2)
      else
        match callResultE w
            (ensureConnection w (effTimeout timeout st.timeout) st).2.1.server_type
            tool_name (arguments.getD []) with
        | .ok v =>
          ({ success := true, result := some v, error := none,
             tool_name := tool_name,
             server_info := getServerInfo
               (ensureConnection w (effTimeout timeout st.timeout) st).2.1 },
           (ensureConnection w (effTimeout timeout st.timeout) st).2.1,
           (ensureConnection w (effTimeout timeout st.timeout) st).2.2)
        | .error e =>
          ({ success := false, result := none, error := some (execErrMsg e),
             tool_name := tool_name,
             server_info := getServerInfo
               { (ensureConnection w (effTimeout timeout st.timeout) st).2.1 with
                   connection_healthy := false } },
           { (ensureConnection w (effTimeout timeout st.timeout) st).2.1 with
               connection_healthy := false },
           (ensureConnection w (effTimeout timeout st.timeout) st).2.2)

/-- Embedding of `close`: the HTTP client pool is released (`aclose` is
idempotent and modelled as non-raising), the stdio session cleanup is a
no-op in the source, and the health flag is unconditionally cleared; no
other attribute is touched. -/
def close (st : BridgeState) : BridgeState :=
  { st with connection_healthy := false }

/-- Trace of an exhausted reconnection loop: `fuel` failed attempts starting
at index `i`, each followed by a one-unit sleep. -/
def exhaustTrace : Nat → Nat → List Event
  | _, 0 => []
  | i, fuel + 1 => Event.connect i :: Event.sleep 1 :: exhaustTrace (i + 1) fuel

/-! Concrete fixtures used by witnesses and counterexamples. -/

/-- Catalog entry used by the concrete runs. -/
def echoInfo : ToolInfo := ⟨"Echo a message", "\x7b\x7d"⟩

/-- A bridge already connected over stdio with a one-tool catalog. -/
def stHealthy : BridgeState :=
  { server_type := "stdio", server_command := some ("echo-server"), server_url := none
    timeout := 30, reconnect_attempts := 3, session := true, http_client := false
    available_tools := [("echo", echoInfo)], connection_healthy := true }

/-- The same bridge after its connection broke. -/
def stUnhealthy : BridgeState := { stHealthy with connection_healthy := false }

/-- The broken bridge with a configured timeout of one second — small
enough that the reconnection backoff sleeps exhaust the deadline. -/
def stT1 : BridgeState := { stUnhealthy with timeout := 1 }

/-- A stdio connect attempt that fully succeeds with a one-tool list. -/
def okStdioOracle : StdioConnectOracle :=
  ⟨true, true, some [⟨"echo", "Echo a message", "\x7b\x7d"⟩]⟩

/-- A stdio connect attempt whose transport construction raises. -/
def failStdioOracle : StdioConnectOracle := ⟨false, true, none⟩

/-- An HTTP connect attempt that fully succeeds. -/
def okHttpOracle : HttpConnectOracle :=
  ⟨true, some [⟨some ("echo"), some ("Echo a message"), none⟩]⟩

/-- A world where connecting always succeeds and the echo call answers
quickly. -/
def wOk : World :=
  { stdioConnects := fun _ => okStdioOracle
    httpConnects := fun _ => okHttpOracle
    stdioCall := fun _ _ => .resp ["Echo: hi"]
    httpCall := fun _ _ => .resp (some [⟨some ("Echo: hi")⟩])
    callDuration := fun _ _ => 1 }

/-- A world where every connect attempt fails on both transports. -/
def wFailConnect : World :=
  { wOk with stdioConnects := fun _ => failStdioOracle
             httpConnects := fun _ => ⟨false, none⟩ }

/-- A world where the transport call raises. -/
def wRaise : World :=
  { wOk with stdioCall := fun _ _ => .raiseExc ("boom")
             httpCall := fun _ _ => .raiseExc ("boom") }

/-- A world where the transport call takes 99 time units. -/
def wSlow : World := { wOk with callDuration := fun _ _ => 99 }

/-- A healthy bridge whose single catalogued tool name holds a backslash. -/
def stBackslash : BridgeState :=
  { stHealthy with available_tools := [("a\\b", echoInfo)] }

/-! Contiguous-substring machinery for the catalog-listing message. -/

/-- The character list `n` occurs contiguously inside `h`. -/
def SubStr (n h : List Char) : Prop := ∃ pre post, h = pre ++ (n ++ post)

/-- Decision procedure for `SubStr`: some start index yields `n`. -/
def subStrB (n h : List Char) : Bool :=
  (List.range (h.length + 1)).any fun i => decide (n = (h.drop i).take n.length)

theorem subStr_iff (n h : List Char) : SubStr n h ↔ subStrB n h = true := by
  constructor
  · rintro ⟨pre, post, rfl⟩
    simp only [subStrB, List.any_eq_true, List.mem_range]
    refine ⟨pre.length, by simp [Nat.lt_succ_iff], ?_⟩
    rw [List.drop_left]
    simp [List.take_left]
  · intro hb
    simp only [subStrB, List.any_eq_true, List.mem_range] at hb
    obtain ⟨i, _, hi⟩ := hb
    rw [decide_eq_true_iff] at hi
    refine ⟨h.take i, (h.drop i).drop n.length, ?_⟩
    conv_lhs => rw [← List.take_append_drop i h]
    congr 1
    conv_lhs => rw [← List.take_append_drop n.length (h.drop i)]
    rw [← hi]

theorem subStr_self (n : List Char) : SubStr n n := ⟨[], [], by simp⟩

theorem subStr_append_left (n h g : List Char) (hs : SubStr n h) : SubStr n (g ++ h) := by
  obtain ⟨pre, post, rfl⟩ := hs
  exact ⟨g ++ pre, post, by simp⟩

theorem subStr_append_right (n h g : List Char) (hs : SubStr n h) : SubStr n (h ++ g) := by
  obtain ⟨pre, post, rfl⟩ := hs
  exact ⟨pre, post ++ g, by simp⟩

theorem subStr_trans (a b c : List Char) (h1 : SubStr a b) (h2 : SubStr b c) : SubStr a c := by
  obtain ⟨p1, q1, rfl⟩ := h1
  obtain ⟨p2, q2, rfl⟩ := h2
  exact ⟨p2 ++ p1, q1 ++ q2, by simp⟩

theorem strData_append (s t : String) : (s ++ t).data = s.data ++ t.data := rfl

/-- A name made of printable ASCII characters (codepoints 32 to 126) with
no backslash and not both kinds of quote at once.  Python repr escapes no
character of such a name, so it appears verbatim inside its repr; the
condition deliberately excludes everything Python repr might escape,
including all non-ASCII non-printables. -/
def reprPlain (s : String) : Bool :=
  decide ((∀ c ∈ s.data, c ≠ '\\' ∧ 32 ≤ c.toNat ∧ c.toNat ≤ 126)
    ∧ ¬('\'' ∈ s.data ∧ '"' ∈ s.data))

theorem escData_plain (q : Char) (l : List Char)
    (h : ∀ c ∈ l, pyEscChar q c = [c]) : escData q l = l := by
  induction l with
  | nil => rfl
  | cons c cs ih =>
    simp only [escData, h c (List.mem_cons_self c cs)]
    simp only [List.singleton_append, List.cons.injEq, true_and]
    exact ih fun d hd => h d (List.mem_cons_of_mem c hd)

theorem pyEscChar_plain (q c : Char) (hb : c ≠ '\\') (hq : c ≠ q)
    (hlo : 32 ≤ c.toNat) (hhi : c.toNat ≤ 126) : pyEscChar q c = [c] := by
  have ht : c ≠ '\t' := by rintro rfl; exact absurd hlo (by decide)
  have hn : c ≠ '\n' := by rintro rfl; exact absurd hlo (by decide)
  have hr : c ≠ '\r' := by rintro rfl; exact absurd hlo (by decide)
  have h1 : ¬(c.toNat < 32 ∨ c.toNat = 127 ∨ (128 ≤ c.toNat ∧ c.toNat ≤ 159)
      ∨ c.toNat = 160 ∨ c.toNat = 173) := by omega
  have h2 : ¬(c.toNat = 8232 ∨ c.toNat = 8233) := by omega
  simp [pyEscChar, hb, hq, ht, hn, hr, h1, h2]

theorem reprPlain_quote_not_mem (s : String) (h : reprPlain s = true) :
    pyQuote s ∉ s.data := by
  rw [reprPlain, decide_eq_true_iff] at h
  unfold pyQuote
  split
  next hcond => exact hcond.2
  next hcond =>
    intro hmem
    by_cases hdq : '"' ∈ s.data
    · exact h.2 ⟨hmem, hdq⟩
    · exact hcond ⟨hmem, hdq⟩

theorem pyRepr_plain_subStr (s : String) (h : reprPlain s = true) :
    SubStr s.data (pyRepr s).data := by
  have hq := reprPlain_quote_not_mem s h
  rw [reprPlain, decide_eq_true_iff] at h
  have hesc : escData (pyQuote s) s.data = s.data := by
    apply escData_plain
    intro c hc
    obtain ⟨hb, hlo, hhi⟩ := h.1 c hc
    refine pyEscChar_plain _ _ hb ?_ hlo hhi
    rintro rfl
    exact hq hc
  refine ⟨[pyQuote s], [pyQuote s], ?_⟩
  show (pyRepr s).data = _
  simp [pyRepr, hesc]

theorem pyJoinComma_mem_subStr (x : String) (l : List String) (hx : x ∈ l) :
    SubStr x.data (pyJoinComma l).data := by
  induction l with
  | nil => cases hx
  | cons s rest ih =>
    cases rest with
    | nil =>
      rcases List.mem_singleton.mp hx with rfl
      exact subStr_self _
    | cons t rs =>
      have hstep : pyJoinComma (s :: t :: rs) = (s ++ ", ") ++ pyJoinComma (t :: rs) := rfl
      rcases List.mem_cons.mp hx with rfl | hx2
      · rw [hstep, strData_append, strData_append]
        exact subStr_append_right _ _ _ (subStr_append_right _ _ _ (subStr_self _))
      · have hs := ih hx2
        rw [hstep, strData_append]
        exact subStr_append_left _ _ _ hs

theorem pyList_mem_subStr (k : String) (keys : List String) (hk : k ∈ keys)
    (hp : reprPlain k = true) : SubStr k.data (pyList keys).data := by
  have h1 : SubStr k.data (pyRepr k).data := pyRepr_plain_subStr k hp
  have h2 : SubStr (pyRepr k).data (pyJoinComma (keys.map pyRepr)).data :=
    pyJoinComma_mem_subStr _ _ (List.mem_map_of_mem pyRepr hk)
  have h3 : SubStr k.data (pyJoinComma (keys.map pyRepr)).data := subStr_trans _ _ _ h1 h2
  show SubStr k.data (("[" ++ pyJoinComma (keys.map pyRepr)) ++ "]").data
  rw [strData_append, strData_append]
  exact subStr_append_right _ _ _ (subStr_append_left _ _ _ h3)

/-! Lemmas about the reconnection loop. -/

theorem connectOnce_serverType (w : World) (i : Nat) (st : BridgeState) :
    (connectOnce w i st).2.server_type = st.server_type := by
  unfold connectOnce stdioConnect httpConnect
  by_cases hty : st.server_type = "stdio"
  · rw [if_pos hty]
    rcases h1 : (w.stdioConnects i).transportOk <;>
      rcases h2 : (w.stdioConnects i).initOk <;>
      rcases h3 : (w.stdioConnects i).listToolsResult <;>
      simp [h1, h2, h3]
  · rw [if_neg hty]
    rcases h1 : (w.httpConnects i).clientOk <;>
      rcases h2 : (w.httpConnects i).listResult with _ | es <;>
      simp [h1, h2]
    rcases h3 : parseHttpEntries es <;> simp [h3]

theorem connectOnce_success_eq (w : World) (i : Nat) (st : BridgeState) :
    (connectOnce w i st).1 = attemptSucceeds w st.server_type i := by
  unfold connectOnce attemptSucceeds stdioConnect httpConnect
  by_cases hty : st.server_type = "stdio"
  · rw [if_pos hty, if_pos hty]
    rcases h1 : (w.stdioConnects i).transportOk <;>
      rcases h2 : (w.stdioConnects i).initOk <;>
      rcases h3 : (w.stdioConnects i).listToolsResult <;>
      simp [h1, h2, h3]
  · rw [if_neg hty, if_neg hty]
    rcases h1 : (w.httpConnects i).clientOk <;>
      rcases h2 : (w.httpConnects i).listResult with _ | es <;>
      simp [h1, h2]
    rcases h3 : parseHttpEntries es <;> simp [h3]

theorem connectOnce_healthy_of_true (w : World) (i : Nat) (st : BridgeState)
    (h : (connectOnce w i st).1 = true) : (connectOnce w i st).2.connection_healthy = true := by
  unfold connectOnce stdioConnect httpConnect at h ⊢
  by_cases hty : st.server_type = "stdio"
  · rw [if_pos hty] at h ⊢
    rcases h1 : (w.stdioConnects i).transportOk <;>
      rcases h2 : (w.stdioConnects i).initOk <;>
      rcases h3 : (w.stdioConnects i).listToolsResult <;>
      simp_all
  · rw [if_neg hty] at h ⊢
    rcases h1 : (w.httpConnects i).clientOk <;>
      rcases h2 : (w.httpConnects i).listResult with _ | es <;>
      simp_all
    rcases h3 : parseHttpEntries es <;> simp_all

theorem connectOnce_healthy_of_false (w : World) (i : Nat) (st : BridgeState)
    (h : (connectOnce w i st).1 = false) : (connectOnce w i st).2.connection_healthy = false := by
  unfold connectOnce stdioConnect httpConnect at h ⊢
  by_cases hty : st.server_type = "stdio"
  · rw [if_pos hty] at h ⊢
    rcases h1 : (w.stdioConnects i).transportOk <;>
      rcases h2 : (w.stdioConnects i).initOk <;>
      rcases h3 : (w.stdioConnects i).listToolsResult <;>
      simp_all
  · rw [if_neg hty] at h ⊢
    rcases h1 : (w.httpConnects i).clientOk <;>
      rcases h2 : (w.httpConnects i).listResult with _ | es <;>
      simp_all
    rcases h3 : parseHttpEntries es <;> simp_all

theorem ensureAux_zero (w : World) (T : Int) (i : Nat) (st : BridgeState) :
    ensureAux w T 0 i st = (some false, st, []) := rfl

theorem ensureAux_succ (w : World) (T : Int) (fuel i : Nat) (st : BridgeState) :
    ensureAux w T (fuel + 1) i st =
      if (connectOnce w i st).1 = true then
        (some true, (connectOnce w i st).2, [Event.connect i])
      else if T ≤ ((i + 1 : Nat) : Int) then
        (none, (connectOnce w i st).2, [Event.connect i, Event.sleep 1])
      else
        ((ensureAux w T fuel (i + 1) (connectOnce w i st).2).1,
         (ensureAux w T fuel (i + 1) (connectOnce w i st).2).2.1,
         Event.connect i :: Event.sleep 1 ::
           (ensureAux w T fuel (i + 1) (connectOnce w i st).2).2.2) := rfl

theorem exhaustTrace_connects (i fuel : Nat) :
    countConnects (exhaustTrace i fuel) = fuel := by
  induction fuel generalizing i with
  | zero => rfl
  | succ f ih =>
    show countConnects (Event.connect i :: Event.sleep 1 :: exhaustTrace (i + 1) f) = f + 1
    simp [countConnects, ih]

theorem exhaustTrace_sleeps (i fuel : Nat) :
    countSleeps (exhaustTrace i fuel) = fuel := by
  induction fuel generalizing i with
  | zero => rfl
  | succ f ih =>
    show countSleeps (Event.connect i :: Event.sleep 1 :: exhaustTrace (i + 1) f) = f + 1
    simp [countSleeps, ih]

theorem ensureAux_connects_le (w : World) (T : Int) (fuel i : Nat) (st : BridgeState) :
    countConnects (ensureAux w T fuel i st).2.2 ≤ fuel := by
  induction fuel generalizing i st with
  | zero => simp [ensureAux_zero, countConnects]
  | succ f ih =>
    rw [ensureAux_succ]
    by_cases hc : (connectOnce w i st).1 = true
    · rw [if_pos hc]
      show countConnects [Event.connect i] ≤ f + 1
      simp only [countConnects]
      omega
    · rw [if_neg hc]
      by_cases hT2 : T ≤ ((i + 1 : Nat) : Int)
      · rw [if_pos hT2]
        show countConnects [Event.connect i, Event.sleep 1] ≤ f + 1
        simp only [countConnects]
        omega
      · rw [if_neg hT2]
        have := ih (i + 1) (connectOnce w i st).2
        show countConnects (Event.connect i :: Event.sleep 1 :: _) ≤ f + 1
        simp only [countConnects]
        omega

theorem ensureAux_healthy_of_some_true (w : World) (T : Int) (fuel i : Nat)
    (st : BridgeState) (h : (ensureAux w T fuel i st).1 = some true) :
    (ensureAux w T fuel i st).2.1.connection_healthy = true := by
  induction fuel generalizing i st with
  | zero => rw [ensureAux_zero] at h; simp at h
  | succ f ih =>
    rw [ensureAux_succ] at h ⊢
    by_cases hc : (connectOnce w i st).1 = true
    · rw [if_pos hc]
      simpa using connectOnce_healthy_of_true w i st hc
    · rw [if_neg hc] at h ⊢
      by_cases hT2 : T ≤ ((i + 1 : Nat) : Int)
      · rw [if_pos hT2] at h
        simp at h
      · rw [if_neg hT2] at h ⊢
        exact ih (i + 1) (connectOnce w i st).2 h

theorem ensureAux_healthy_of_some_false (w : World) (T : Int) (fuel i : Nat)
    (st : BridgeState) (h : (ensureAux w T fuel i st).1 = some false) :
    (ensureAux w T fuel i st).2.1.connection_healthy = false ∨
      (ensureAux w T fuel i st).2.1 = st := by
  induction fuel generalizing i st with
  | zero => right; rw [ensureAux_zero]
  | succ f ih =>
    rw [ensureAux_succ] at h ⊢
    by_cases hc : (connectOnce w i st).1 = true
    · rw [if_pos hc] at h
      simp at h
    · rw [if_neg hc] at h ⊢
      by_cases hT2 : T ≤ ((i + 1 : Nat) : Int)
      · rw [if_pos hT2] at h
        simp at h
      · rw [if_neg hT2] at h ⊢
        rcases ih (i + 1) (connectOnce w i st).2 h with hh | hh
        · left; exact hh
        · left
          show (ensureAux w T f (i + 1) (connectOnce w i st).2).2.1.connection_healthy = false
          rw [hh]
          exact connectOnce_healthy_of_false w i st (by simpa using hc)

theorem ensureAux_healthy_of_none (w : World) (T : Int) (fuel i : Nat)
    (st : BridgeState) (h : (ensureAux w T fuel i st).1 = none) :
    (ensureAux w T fuel i st).2.1.connection_healthy = false := by
  induction fuel generalizing i st with
  | zero => rw [ensureAux_zero] at h; simp at h
  | succ f ih =>
    rw [ensureAux_succ] at h ⊢
    by_cases hc : (connectOnce w i st).1 = true
    · rw [if_pos hc] at h
      simp at h
    · rw [if_neg hc] at h ⊢
      by_cases hT2 : T ≤ ((i + 1 : Nat) : Int)
      · rw [if_pos hT2]
        exact connectOnce_healthy_of_false w i st (by simpa using hc)
      · rw [if_neg hT2] at h ⊢
        exact ih (i + 1) (connectOnce w i st).2 h

theorem ensureAux_all_fail_finish (w : World) (ty : String) (T : Int) (fuel i : Nat)
    (st : BridgeState) (hty : st.server_type = ty)
    (hfail : ∀ j, j < fuel → attemptSucceeds w ty (i + j) = false)
    (hT : ((i + fuel : Nat) : Int) < T) :
    (ensureAux w T fuel i st).1 = some false ∧
      (ensureAux w T fuel i st).2.2 = exhaustTrace i fuel := by
  induction fuel generalizing i st with
  | zero => exact ⟨rfl, rfl⟩
  | succ f ih =>
    have h0 : (connectOnce w i st).1 = false := by
      rw [connectOnce_success_eq, hty]
      simpa using hfail 0 (Nat.succ_pos f)
    have hty2 : (connectOnce w i st).2.server_type = ty := by
      rw [connectOnce_serverType, hty]
    have hrest : ∀ j, j < f → attemptSucceeds w ty (i + 1 + j) = false := by
      intro j hj
      have := hfail (j + 1) (by omega)
      rwa [show i + (j + 1) = i + 1 + j by omega] at this
    have hT2 : ¬(T ≤ ((i + 1 : Nat) : Int)) := by
      push_cast at hT ⊢
      omega
    have hTr : ((i + 1 + f : Nat) : Int) < T := by
      push_cast at hT ⊢
      omega
    have hih := ih (i + 1) (connectOnce w i st).2 hty2 hrest hTr
    rw [ensureAux_succ, h0]
    simp only [Bool.false_eq_true, if_false]
    rw [if_neg hT2]
    refine ⟨hih.1, ?_⟩
    show Event.connect i :: Event.sleep 1 :: _ = exhaustTrace i (f + 1)
    rw [show exhaustTrace i (f + 1)
          = Event.connect i :: Event.sleep 1 :: exhaustTrace (i + 1) f from rfl, hih.2]

theorem ensureAux_all_fail_timeout (w : World) (ty : String) (T : Int) (fuel i : Nat)
    (st : BridgeState) (hty : st.server_type = ty)
    (hfail : ∀ j, j < fuel → attemptSucceeds w ty (i + j) = false)
    (hlo : ((i : Nat) : Int) < T)
    (hhi : T ≤ ((i + fuel : Nat) : Int)) :
    (ensureAux w T fuel i st).1 = none ∧
      (ensureAux w T fuel i st).2.2 = exhaustTrace i (T.toNat - i) := by
  induction fuel generalizing i st with
  | zero =>
    exfalso
    push_cast at hlo hhi
    omega
  | succ f ih =>
    have h0 : (connectOnce w i st).1 = false := by
      rw [connectOnce_success_eq, hty]
      simpa using hfail 0 (Nat.succ_pos f)
    have hty2 : (connectOnce w i st).2.server_type = ty := by
      rw [connectOnce_serverType, hty]
    rw [ensureAux_succ, h0]
    simp only [Bool.false_eq_true, if_false]
    by_cases hT2 : T ≤ ((i + 1 : Nat) : Int)
    · rw [if_pos hT2]
      refine ⟨rfl, ?_⟩
      have hc1 : T.toNat - i = 1 := by
        push_cast at hlo hT2
        omega
      rw [hc1]
      rfl
    · rw [if_neg hT2]
      have hrest : ∀ j, j < f → attemptSucceeds w ty (i + 1 + j) = false := by
        intro j hj
        have := hfail (j + 1) (by omega)
        rwa [show i + (j + 1) = i + 1 + j by omega] at this
      have hlo2 : ((i + 1 : Nat) : Int) < T := by
        push_cast at hT2 ⊢
        omega
      have hhi2 : T ≤ ((i + 1 + f : Nat) : Int) := by
        push_cast at hhi ⊢
        omega
      have hih := ih (i + 1) (connectOnce w i st).2 hty2 hrest hlo2 hhi2
      refine ⟨hih.1, ?_⟩
      show Event.connect i :: Event.sleep 1 :: _ = exhaustTrace i (T.toNat - i)
      have hc : T.toNat - i = (T.toNat - (i + 1)) + 1 := by
        push_cast at hT2
        omega
      rw [hih.2, hc]
      rfl

theorem ensureAux_first_success (w : World) (ty : String) (T : Int) (fuel i k : Nat)
    (st : BridgeState) (hty : st.server_type = ty)
    (hk : k < fuel)
    (hkT : ((i + k : Nat) : Int) < T)
    (hbefore : ∀ j, j < k → attemptSucceeds w ty (i + j) = false)
    (hsucc : attemptSucceeds w ty (i + k) = true) :
    (ensureAux w T fuel i st).1 = some true ∧
      countConnects (ensureAux w T fuel i st).2.2 = k + 1 := by
  induction fuel generalizing i k st with
  | zero => omega
  | succ f ih =>
    rcases k with _ | k2
    · have hc : (connectOnce w i st).1 = true := by
        rw [connectOnce_success_eq, hty]
        simpa using hsucc
      rw [ensureAux_succ, if_pos hc]
      exact ⟨rfl, rfl⟩
    · have h0 : (connectOnce w i st).1 = false := by
        rw [connectOnce_success_eq, hty]
        simpa using hbefore 0 (Nat.succ_pos k2)
      have hty2 : (connectOnce w i st).2.server_type = ty := by
        rw [connectOnce_serverType, hty]
      have hT2 : ¬(T ≤ ((i + 1 : Nat) : Int)) := by
        push_cast at hkT ⊢
        omega
      have hbefore2 : ∀ j, j < k2 → attemptSucceeds w ty (i + 1 + j) = false := by
        intro j hj
        have := hbefore (j + 1) (by omega)
        rwa [show i + (j + 1) = i + 1 + j by omega] at this
      have hsucc2 : attemptSucceeds w ty (i + 1 + k2) = true := by
        rwa [show i + 1 + k2 = i + (k2 + 1) by omega]
      have hkT2 : ((i + 1 + k2 : Nat) : Int) < T := by
        push_cast at hkT ⊢
        omega
      have hih := ih (i + 1) k2 (connectOnce w i st).2 hty2 (by omega) hkT2 hbefore2 hsucc2
      rw [ensureAux_succ, h0]
      simp only [Bool.false_eq_true, if_false]
      rw [if_neg hT2]
      refine ⟨hih.1, ?_⟩
      show countConnects (Event.connect i :: Event.sleep 1 :: _) = k2 + 1 + 1
      simp only [countConnects]
      rw [hih.2]

theorem ensureConnection_fast (w : World) (T : Int) (st : BridgeState)
    (hh : st.connection_healthy = true) :
    ensureConnection w T st = (some true, st, []) := by
  unfold ensureConnection
  rw [hh]
  simp

theorem ensureConnection_healthy_of_some_false (w : World) (T : Int) (st : BridgeState)
    (hst : st.connection_healthy = false)
    (h : (ensureConnection w T st).1 = some false) :
    (ensureConnection w T st).2.1.connection_healthy = false := by
  unfold ensureConnection at h ⊢
  rw [hst] at h ⊢
  simp only [Bool.false_eq_true, if_false] at h ⊢
  rcases ensureAux_healthy_of_some_false w T st.reconnect_attempts 0 st h with hh | hh
  · exact hh
  · rw [hh]
    exact hst

theorem ensureConnection_healthy_of_none (w : World) (T : Int) (st : BridgeState)
    (h : (ensureConnection w T st).1 = none) :
    (ensureConnection w T st).2.1.connection_healthy = false := by
  unfold ensureConnection at h ⊢
  by_cases hst : st.connection_healthy = true
  · rw [if_pos hst] at h
    simp at h
  · rw [if_neg hst] at h ⊢
    exact ensureAux_healthy_of_none w T st.reconnect_attempts 0 st h

/-! Branch characterizations of `execute`. -/

theorem execute_nonpos_eq (w : World) (st : BridgeState) (name : String)
    (args : Option PyDict) (tmo : Option Int)
    (hle : effTimeout tmo st.timeout ≤ 0) :
    execute w st name args tmo =
      ({ success := false, result := none,
         error := some (timeoutMsg (effTimeout tmo st.timeout)),
         tool_name := name, server_info := getServerInfo st }, st, []) := by
  unfold execute
  rw [if_pos hle]

theorem execute_enstimeout_eq (w : World) (st : BridgeState) (name : String)
    (args : Option PyDict) (tmo : Option Int)
    (hT : 0 < effTimeout tmo st.timeout)
    (hens : (ensureConnection w (effTimeout tmo st.timeout) st).1 = none) :
    execute w st name args tmo =
      ({ success := false, result := none,
         error := some (timeoutMsg (effTimeout tmo st.timeout)),
         tool_name := name,
         server_info := getServerInfo
           (ensureConnection w (effTimeout tmo st.timeout) st).2.1 },
       (ensureConnection w (effTimeout tmo st.timeout) st).2.1,
       (ensureConnection w (effTimeout tmo st.timeout) st).2.2) := by
  unfold execute
  rw [if_neg (by omega), hens]

theorem execute_connfail_eq (w : World) (st : BridgeState) (name : String)
    (args : Option PyDict) (tmo : Option Int)
    (hT : 0 < effTimeout tmo st.timeout)
    (hens : (ensureConnection w (effTimeout tmo st.timeout) st).1 = some false) :
    execute w st name args tmo =
      ({ success := false, result := none, error := some connFailedMsg,
         tool_name := name,
         server_info := getServerInfo
           (ensureConnection w (effTimeout tmo st.timeout) st).2.1 },
       (ensureConnection w (effTimeout tmo st.timeout) st).2.1,
       (ensureConnection w (effTimeout tmo st.timeout) st).2.2) := by
  unfold execute
  rw [if_neg (by omega), hens]

theorem execute_unknown_eq (w : World) (st : BridgeState) (name : String)
    (args : Option PyDict) (tmo : Option Int)
    (hh : st.connection_healthy = true)
    (hT : 0 < effTimeout tmo st.timeout)
    (hun : (keysOf st).contains name = false) :
    execute w st name args tmo =
      ({ success := false, result := none,
         error := some (unknownToolMsg name (keysOf st)),
         tool_name := name, server_info := getServerInfo st }, st, []) := by
  unfold execute
  rw [if_neg (by omega), ensureConnection_fast w (effTimeout tmo st.timeout) st hh]
  dsimp only
  rw [if_pos hun]

theorem execute_calltimeout_eq (w : World) (st : BridgeState) (name : String)
    (args : Option PyDict) (tmo : Option Int)
    (hh : st.connection_healthy = true)
    (hT : 0 < effTimeout tmo st.timeout)
    (hk : (keysOf st).contains name = true)
    (hslow : effTimeout tmo st.timeout < (w.callDuration name (args.getD []) : Int)) :
    execute w st name args tmo =
      ({ success := false, result := none,
         error := some (timeoutMsg (effTimeout tmo st.timeout)),
         tool_name := name, server_info := getServerInfo st }, st, []) := by
  unfold execute
  rw [if_neg (by omega), ensureConnection_fast w (effTimeout tmo st.timeout) st hh]
  dsimp only
  rw [hk, if_neg (show ¬(true = false) by simp)]
  have hC : effTimeout tmo st.timeout <
      (countSleeps ([] : List Event) : Int) + (w.callDuration name (args.getD []) : Int) := by
    simpa [countSleeps] using hslow
  rw [if_pos hC]

theorem execute_ok_eq (w : World) (st : BridgeState) (name : String)
    (args : Option PyDict) (tmo : Option Int) (v : PyVal)
    (hh : st.connection_healthy = true)
    (hT : 0 < effTimeout tmo st.timeout)
    (hk : (keysOf st).contains name = true)
    (hdur : (w.callDuration name (args.getD []) : Int) ≤ effTimeout tmo st.timeout)
    (hok : callResultE w st.server_type name (args.getD []) = .ok v) :
    execute w st name args tmo =
      ({ success := true, result := some v, error := none,
         tool_name := name, server_info := getServerInfo st }, st, []) := by
  unfold execute
  rw [if_neg (by omega), ensureConnection_fast w (effTimeout tmo st.timeout) st hh]
  dsimp only
  rw [hk, if_neg (show ¬(true = false) by simp)]
  have hC : ¬(effTimeout tmo st.timeout <
      (countSleeps ([] : List Event) : Int) + (w.callDuration name (args.getD []) : Int)) := by
    simp only [countSleeps, Nat.cast_zero, zero_add]
    omega
  rw [if_neg hC, hok]

theorem execute_err_eq (w : World) (st : BridgeState) (name : String)
    (args : Option PyDict) (tmo : Option Int) (e : String)
    (hh : st.connection_healthy = true)
    (hT : 0 < effTimeout tmo st.timeout)
    (hk : (keysOf st).contains name = true)
    (hdur : (w.callDuration name (args.getD []) : Int) ≤ effTimeout tmo st.timeout)
    (herr : callResultE w st.server_type name (args.getD []) = .error e) :
    execute w st name args tmo =
      ({ success := false, result := none, error := some (execErrMsg e),
         tool_name := name,
         server_info := getServerInfo { st with connection_healthy := false } },
       { st with connection_healthy := false }, []) := by
  unfold execute
  rw [if_neg (by omega), ensureConnection_fast w (effTimeout tmo st.timeout) st hh]
  dsimp only
  rw [hk, if_neg (show ¬(true = false) by simp)]
  have hC : ¬(effTimeout tmo st.timeout <
      (countSleeps ([] : List Event) : Int) + (w.callDuration name (args.getD []) : Int)) := by
    simp only [countSleeps, Nat.cast_zero, zero_add]
    omega
  rw [if_neg hC, herr]

/-! Claim theorems. -/

/-- C1 counterexample: with a configured timeout of 1 second and three
configured reconnect attempts, all failing, `execute` returns a Timeout
failure — not ConnectionFailed — after exactly one connect attempt (the
deadline expires during the first backoff sleep), so the claimed dichotomy
"ConnectionFailed after exactly maxReconnectAttempts attempts, never fewer"
is false of the program. -/
theorem execute_reconnect_deadline_cx :
    (execute wFailConnect stT1 ("echo") none none).1.error =
      some ("Tool execution timed out after 1 seconds") ∧
    countConnects (execute wFailConnect stT1 ("echo") none none).2.2 = 1 ∧
    (execute wFailConnect stT1 ("echo") none none).1.error ≠ some connFailedMsg := by
  have hens : (ensureConnection wFailConnect
      (effTimeout none stT1.timeout) stT1).1 = none := rfl
  rw [execute_enstimeout_eq wFailConnect stT1 ("echo") none none (by decide) hens]
  refine ⟨rfl, rfl, by decide⟩

/-- C1 (amended): starting from an unhealthy connection state, `execute`
attempts reconnection until one attempt succeeds, up to
`reconnect_attempts` attempts and never more; when every attempt fails and
the effective timeout strictly exceeds the total backoff time (one sleep
per attempt), it returns the connection-failed failure after exactly
`reconnect_attempts` connect attempts, each followed by a one-unit sleep;
but when the effective timeout is at most the number of backoff sleeps
needed, the `wait_for` deadline expires during a sleep and `execute`
returns a Timeout failure after exactly `toNat` of the effective timeout
connect attempts — fewer than the configured maximum whenever the timeout
is smaller. -/
theorem execute_reconnect_exhaustion (w : World) (st : BridgeState) (name : String)
    (args : Option PyDict) (tmo : Option Int)
    (hst : st.connection_healthy = false)
    (hT : 0 < effTimeout tmo st.timeout) :
    countConnects (ensureConnection w (effTimeout tmo st.timeout) st).2.2
        ≤ st.reconnect_attempts ∧
    (∀ k, k < st.reconnect_attempts → ((k : Nat) : Int) < effTimeout tmo st.timeout →
      (∀ j, j < k → attemptSucceeds w st.server_type j = false) →
      attemptSucceeds w st.server_type k = true →
      (ensureConnection w (effTimeout tmo st.timeout) st).1 = some true ∧
      (ensureConnection w (effTimeout tmo st.timeout) st).2.1.connection_healthy = true ∧
      countConnects (ensureConnection w (effTimeout tmo st.timeout) st).2.2 = k + 1) ∧
    ((∀ i, i < st.reconnect_attempts → attemptSucceeds w st.server_type i = false) →
      ((st.reconnect_attempts : Nat) : Int) < effTimeout tmo st.timeout →
      (execute w st name args tmo).1.success = false ∧
      (execute w st name args tmo).1.error = some connFailedMsg ∧
      (execute w st name args tmo).2.2 = exhaustTrace 0 st.reconnect_attempts ∧
      countConnects (execute w st name args tmo).2.2 = st.reconnect_attempts ∧
      countSleeps (execute w st name args tmo).2.2 = st.reconnect_attempts) ∧
    ((∀ i, i < st.reconnect_attempts → attemptSucceeds w st.server_type i = false) →
      effTimeout tmo st.timeout ≤ ((st.reconnect_attempts : Nat) : Int) →
      (execute w st name args tmo).1.success = false ∧
      (execute w st name args tmo).1.error =
        some (timeoutMsg (effTimeout tmo st.timeout)) ∧
      countConnects (execute w st name args tmo).2.2 =
        (effTimeout tmo st.timeout).toNat) := by
  have hne : ensureConnection w (effTimeout tmo st.timeout) st
      = ensureAux w (effTimeout tmo st.timeout) st.reconnect_attempts 0 st := by
    unfold ensureConnection
    rw [hst]
    simp
  refine ⟨?_, ?_, ?_, ?_⟩
  · rw [hne]
    exact ensureAux_connects_le w (effTimeout tmo st.timeout) st.reconnect_attempts 0 st
  · intro k hk hkT hbef hsucc
    have hfs := ensureAux_first_success w st.server_type (effTimeout tmo st.timeout)
      st.reconnect_attempts 0 k st rfl hk (by simpa using hkT)
      (by intro j hj; simpa using hbef j hj) (by simpa using hsucc)
    rw [hne]
    exact ⟨hfs.1,
      ensureAux_healthy_of_some_true w (effTimeout tmo st.timeout)
        st.reconnect_attempts 0 st hfs.1, hfs.2⟩
  · intro hfail hbig
    have hall := ensureAux_all_fail_finish w st.server_type (effTimeout tmo st.timeout)
      st.reconnect_attempts 0 st rfl
      (by intro j hj; simpa using hfail j hj) (by simpa using hbig)
    have hens : (ensureConnection w (effTimeout tmo st.timeout) st).1 = some false := by
      rw [hne]
      exact hall.1
    have htr : (ensureConnection w (effTimeout tmo st.timeout) st).2.2
        = exhaustTrace 0 st.reconnect_attempts := by
      rw [hne]
      exact hall.2
    rw [execute_connfail_eq w st name args tmo hT hens]
    refine ⟨rfl, rfl, htr, ?_, ?_⟩
    · show countConnects (ensureConnection w (effTimeout tmo st.timeout) st).2.2
          = st.reconnect_attempts
      rw [htr, exhaustTrace_connects]
    · show countSleeps (ensureConnection w (effTimeout tmo st.timeout) st).2.2
          = st.reconnect_attempts
      rw [htr, exhaustTrace_sleeps]
  · intro hfail hsmall
    have hto := ensureAux_all_fail_timeout w st.server_type (effTimeout tmo st.timeout)
      st.reconnect_attempts 0 st rfl
      (by intro j hj; simpa using hfail j hj)
      (by simpa using hT) (by simpa using hsmall)
    have hens : (ensureConnection w (effTimeout tmo st.timeout) st).1 = none := by
      rw [hne]
      exact hto.1
    have htr : (ensureConnection w (effTimeout tmo st.timeout) st).2.2
        = exhaustTrace 0 ((effTimeout tmo st.timeout).toNat - 0) := by
      rw [hne]
      exact hto.2
    rw [execute_enstimeout_eq w st name args tmo hT hens]
    refine ⟨rfl, rfl, ?_⟩
    show countConnects (ensureConnection w (effTimeout tmo st.timeout) st).2.2
        = (effTimeout tmo st.timeout).toNat
    rw [htr, exhaustTrace_connects]
    omega

/-- Witness for the amended C1 at concrete runs: with timeout 30, the three
failing attempts exhaust and yield the connection-failed error after three
attempts and three sleeps; with timeout 1, the deadline fires during the
first backoff sleep and yields a timeout failure after one attempt. -/
theorem execute_reconnect_exhaustion_witness :
    ((execute wFailConnect stUnhealthy ("echo") none none).1.error = some connFailedMsg ∧
      countConnects (execute wFailConnect stUnhealthy ("echo") none none).2.2 = 3 ∧
      countSleeps (execute wFailConnect stUnhealthy ("echo") none none).2.2 = 3) ∧
    ((execute wFailConnect stT1 ("echo") none none).1.error =
        some (timeoutMsg 1) ∧
      countConnects (execute wFailConnect stT1 ("echo") none none).2.2 = 1) := by
  constructor
  · have h := execute_reconnect_exhaustion wFailConnect stUnhealthy ("echo") none none
      rfl (by decide)
    have h3 := h.2.2.1 (fun i _ => rfl) (by decide)
    exact ⟨h3.2.1, h3.2.2.2.1, h3.2.2.2.2⟩
  · have h := execute_reconnect_exhaustion wFailConnect stT1 ("echo") none none
      rfl (by decide)
    have h4 := h.2.2.2 (fun i _ => rfl) (by decide)
    exact ⟨h4.2.1, h4.2.2⟩

/-- C2 counterexample: a failure branch of `execute` that does not flip
health to unhealthy — calling an unknown tool on a healthy connection
returns a failure while the health flag stays healthy. -/
theorem execute_unknown_keeps_healthy_cx :
    (execute wOk stHealthy ("nope") none none).1.success = false ∧
    (execute wOk stHealthy ("nope") none none).2.1.connection_healthy = true := by
  rw [execute_unknown_eq wOk stHealthy ("nope") none none rfl (by decide) (by decide)]
  exact ⟨rfl, rfl⟩

/-- C2 (amended): transport or protocol errors during the tool invocation
flip health to unhealthy, and both reconnection failure modes — exhaustion
within the deadline and a deadline expiring during the backoff sleeps —
leave health unhealthy; but the unknown-tool and call-timeout failure
branches leave the health flag unchanged — a failure result can therefore
coexist with a healthy flag. -/
theorem execute_health_per_branch (w : World) (st : BridgeState) (name : String)
    (args : Option PyDict) (tmo : Option Int) :
    (st.connection_healthy = false → 0 < effTimeout tmo st.timeout →
      (ensureConnection w (effTimeout tmo st.timeout) st).1 = some false →
      (execute w st name args tmo).1.error = some connFailedMsg ∧
      (execute w st name args tmo).2.1.connection_healthy = false) ∧
    (st.connection_healthy = false → 0 < effTimeout tmo st.timeout →
      (ensureConnection w (effTimeout tmo st.timeout) st).1 = none →
      (execute w st name args tmo).1.success = false ∧
      (execute w st name args tmo).2.1.connection_healthy = false) ∧
    (st.connection_healthy = true → 0 < effTimeout tmo st.timeout →
      (keysOf st).contains name = false →
      (execute w st name args tmo).1.success = false ∧
      (execute w st name args tmo).2.1.connection_healthy = true) ∧
    (st.connection_healthy = true → 0 < effTimeout tmo st.timeout →
      (keysOf st).contains name = true →
      (w.callDuration name (args.getD []) : Int) ≤ effTimeout tmo st.timeout →
      ∀ e, callResultE w st.server_type name (args.getD []) = .error e →
        (execute w st name args tmo).1.error = some (execErrMsg e) ∧
        (execute w st name args tmo).2.1.connection_healthy = false) ∧
    (st.connection_healthy = true → 0 < effTimeout tmo st.timeout →
      (keysOf st).contains name = true →
      effTimeout tmo st.timeout < (w.callDuration name (args.getD []) : Int) →
      (execute w st name args tmo).1.success = false ∧
      (execute w st name args tmo).2.1 = st) := by
  refine ⟨?_, ?_, ?_, ?_, ?_⟩
  · intro hst hT hens
    rw [execute_connfail_eq w st name args tmo hT hens]
    exact ⟨rfl, ensureConnection_healthy_of_some_false w
      (effTimeout tmo st.timeout) st hst hens⟩
  · intro hst hT hens
    rw [execute_enstimeout_eq w st name args tmo hT hens]
    exact ⟨rfl, ensureConnection_healthy_of_none w
      (effTimeout tmo st.timeout) st hens⟩
  · intro hh hT hun
    rw [execute_unknown_eq w st name args tmo hh hT hun]
    exact ⟨rfl, hh⟩
  · intro hh hT hk hdur e herr
    rw [execute_err_eq w st name args tmo e hh hT hk hdur herr]
    exact ⟨rfl, rfl⟩
  · intro hh hT hk hslow
    rw [execute_calltimeout_eq w st name args tmo hh hT hk hslow]
    exact ⟨rfl, rfl⟩

/-- Witness for the amended C2 at a concrete run: a raising transport call
yields the wrapped execution error and flips health to unhealthy. -/
theorem execute_health_per_branch_witness :
    (execute wRaise stHealthy ("echo") none none).1.error = some (execErrMsg ("boom")) ∧
    (execute wRaise stHealthy ("echo") none none).2.1.connection_healthy = false :=
  (execute_health_per_branch wRaise stHealthy ("echo") none none).2.2.2.1
    rfl (by decide) (by decide) (by decide) ("boom") rfl

/-- C3 counterexample: with a negative caller override (-5) and default 30,
`execute` times out immediately and reports -5 seconds, although the same
call with no override (effective timeout 30, call duration 1) succeeds — so
a negative override is not replaced by the configured default. -/
theorem execute_negative_override_cx :
    (execute wOk stHealthy ("echo") none (some (-5))).1.error =
      some ("Tool execution timed out after -5 seconds") ∧
    (execute wOk stHealthy ("echo") none none).1.success = true := by
  constructor
  · rw [execute_nonpos_eq wOk stHealthy ("echo") none (some (-5)) (by decide)]
    rfl
  · rw [execute_ok_eq wOk stHealthy ("echo") none none (.str ("Echo: hi")) rfl
      (by decide) (by decide) (by decide) rfl]

/-- C3 (amended): the effective timeout is the caller override whenever it
is present and nonzero — including negative values, which are kept as-is
because the source tests Python truthiness, not positivity; only an absent
or zero override falls back to the configured default. -/
theorem effTimeout_truthiness (d t : Int) :
    effTimeout none d = d ∧ effTimeout (some 0) d = d ∧
      (t ≠ 0 → effTimeout (some t) d = t) := by
  refine ⟨rfl, rfl, fun ht => ?_⟩
  simp [effTimeout, ht]

/-- Witness for the amended C3: a negative override is kept. -/
theorem effTimeout_truthiness_witness : effTimeout (some (-5)) 30 = -5 :=
  (effTimeout_truthiness 30 (-5)).2.2 (by decide)

/-- C4 counterexample: the unknown-tool message renders catalog names with
Python repr, so a catalogued name holding a backslash does not occur
verbatim in the message (it appears escaped as two backslashes). -/
theorem execute_unknown_verbatim_cx :
    (execute wOk stBackslash ("nope") none none).1.success = false ∧
    ¬ SubStr ("a\\b").data
        (((execute wOk stBackslash ("nope") none none).1.error.getD "").data) := by
  rw [execute_unknown_eq wOk stBackslash ("nope") none none rfl (by decide) (by decide)]
  refine ⟨rfl, ?_⟩
  rw [subStr_iff]
  decide

/-- C4 (amended): for every tool name absent from the catalog of a healthy
connection, `execute` returns a failure whose message contains every
catalogued tool name, verbatim, provided the names contain no character
that Python repr escapes (backslashes, control characters, or both kinds of
quote at once); names with such characters appear escaped instead. -/
theorem execute_unknown_lists_catalog (w : World) (st : BridgeState) (name : String)
    (args : Option PyDict) (tmo : Option Int)
    (hh : st.connection_healthy = true)
    (hT : 0 < effTimeout tmo st.timeout)
    (hun : (keysOf st).contains name = false)
    (hplain : ∀ k ∈ keysOf st, reprPlain k = true) :
    (execute w st name args tmo).1.success = false ∧
    ∀ k ∈ keysOf st,
      SubStr k.data (((execute w st name args tmo).1.error.getD "").data) := by
  rw [execute_unknown_eq w st name args tmo hh hT hun]
  refine ⟨rfl, ?_⟩
  intro k hk
  show SubStr k.data (unknownToolMsg name (keysOf st)).data
  unfold unknownToolMsg
  rw [strData_append]
  exact subStr_append_left _ _ _ (pyList_mem_subStr k (keysOf st) hk (hplain k hk))

/-- Witness for the amended C4 at a concrete run: calling an unknown tool
with catalog key echo produces a failure whose message contains echo. -/
theorem execute_unknown_lists_catalog_witness :
    (execute wOk stHealthy ("nope") none none).1.success = false ∧
    SubStr ("echo").data
      (((execute wOk stHealthy ("nope") none none).1.error.getD "").data) := by
  have h := execute_unknown_lists_catalog wOk stHealthy ("nope") none none rfl
    (by decide) (by decide) (by decide)
  exact ⟨h.1, h.2 ("echo") (by decide)⟩

/-- C5: when the connection is healthy beforehand and the transport call
exceeds the effective timeout, `execute` returns a timeout failure whose
message states the elapsed seconds, and the bridge state — in particular
the health flag — is completely unchanged. -/
theorem execute_timeout_frame (w : World) (st : BridgeState) (name : String)
    (args : Option PyDict) (tmo : Option Int)
    (hh : st.connection_healthy = true)
    (hT : 0 < effTimeout tmo st.timeout)
    (hk : (keysOf st).contains name = true)
    (hslow : effTimeout tmo st.timeout < (w.callDuration name (args.getD []) : Int)) :
    (execute w st name args tmo).1.success = false ∧
    (execute w st name args tmo).1.error =
      some (timeoutMsg (effTimeout tmo st.timeout)) ∧
    (execute w st name args tmo).2.1 = st ∧
    (execute w st name args tmo).2.1.connection_healthy = true := by
  rw [execute_calltimeout_eq w st name args tmo hh hT hk hslow]
  exact ⟨rfl, rfl, rfl, hh⟩

/-- Witness for C5 at a concrete run: a 99-unit call against a 30-second
deadline times out, reports 30 seconds, and leaves the state unchanged. -/
theorem execute_timeout_frame_witness :
    (execute wSlow stHealthy ("echo") none none).1.error =
      some ("Tool execution timed out after 30 seconds") ∧
    (execute wSlow stHealthy ("echo") none none).2.1.connection_healthy = true := by
  have h := execute_timeout_frame wSlow stHealthy ("echo") none none rfl
    (by decide) (by decide) (by decide)
  exact ⟨h.2.1, h.2.2.2⟩

/-- C6: `execute` is a total function into the result type — the embedding
has no exception channel out of `execute`, mirroring the catch-all handlers
of the source — and each expected failure mode (non-positive deadline,
connection exhaustion within the deadline, deadline expiring during the
reconnection backoff, unknown tool, deadline exceeded during the call,
transport or protocol error) yields the failure variant with the
corresponding message, while a completed call yields the success variant. -/
theorem execute_failure_modes (w : World) (st : BridgeState) (name : String)
    (args : Option PyDict) (tmo : Option Int) :
    (effTimeout tmo st.timeout ≤ 0 →
      (execute w st name args tmo).1.success = false ∧
      (execute w st name args tmo).1.error =
        some (timeoutMsg (effTimeout tmo st.timeout))) ∧
    (0 < effTimeout tmo st.timeout →
      (ensureConnection w (effTimeout tmo st.timeout) st).1 = some false →
      (execute w st name args tmo).1.success = false ∧
      (execute w st name args tmo).1.error = some connFailedMsg) ∧
    (0 < effTimeout tmo st.timeout →
      (ensureConnection w (effTimeout tmo st.timeout) st).1 = none →
      (execute w st name args tmo).1.success = false ∧
      (execute w st name args tmo).1.error =
        some (timeoutMsg (effTimeout tmo st.timeout))) ∧
    (st.connection_healthy = true → 0 < effTimeout tmo st.timeout →
      (keysOf st).contains name = false →
      (execute w st name args tmo).1.success = false ∧
      (execute w st name args tmo).1.error =
        some (unknownToolMsg name (keysOf st))) ∧
    (st.connection_healthy = true → 0 < effTimeout tmo st.timeout →
      (keysOf st).contains name = true →
      effTimeout tmo st.timeout < (w.callDuration name (args.getD []) : Int) →
      (execute w st name args tmo).1.success = false ∧
      (execute w st name args tmo).1.error =
        some (timeoutMsg (effTimeout tmo st.timeout))) ∧
    (st.connection_healthy = true → 0 < effTimeout tmo st.timeout →
      (keysOf st).contains name = true →
      (w.callDuration name (args.getD []) : Int) ≤ effTimeout tmo st.timeout →
      ∀ e, callResultE w st.server_type name (args.getD []) = .error e →
        (execute w st name args tmo).1.success = false ∧
        (execute w st name args tmo).1.error = some (execErrMsg e)) ∧
    (st.connection_healthy = true → 0 < effTimeout tmo st.timeout →
      (keysOf st).contains name = true →
      (w.callDuration name (args.getD []) : Int) ≤ effTimeout tmo st.timeout →
      ∀ v, callResultE w st.server_type name (args.getD []) = .ok v →
        (execute w st name args tmo).1.success = true ∧
        (execute w st name args tmo).1.result = some v ∧
        (execute w st name args tmo).1.error = none) := by
  refine ⟨?_, ?_, ?_, ?_, ?_, ?_, ?_⟩
  · intro hle
    rw [execute_nonpos_eq w st name args tmo hle]
    exact ⟨rfl, rfl⟩
  · intro hT hens
    rw [execute_connfail_eq w st name args tmo hT hens]
    exact ⟨rfl, rfl⟩
  · intro hT hens
    rw [execute_enstimeout_eq w st name args tmo hT hens]
    exact ⟨rfl, rfl⟩
  · intro hh hT hun
    rw [execute_unknown_eq w st name args tmo hh hT hun]
    exact ⟨rfl, rfl⟩
  · intro hh hT hk hslow
    rw [execute_calltimeout_eq w st name args tmo hh hT hk hslow]
    exact ⟨rfl, rfl⟩
  · intro hh hT hk hdur e herr
    rw [execute_err_eq w st name args tmo e hh hT hk hdur herr]
    exact ⟨rfl, rfl⟩
  · intro hh hT hk hdur v hok
    rw [execute_ok_eq w st name args tmo v hh hT hk hdur hok]
    exact ⟨rfl, rfl, rfl⟩

/-- Witness for C6 at a concrete run: a raising transport call is returned
as a failure result with the wrapped message, not propagated. -/
theorem execute_failure_modes_witness :
    (execute wRaise stHealthy ("echo") none none).1.success = false ∧
    (execute wRaise stHealthy ("echo") none none).1.error =
      some (execErrMsg ("boom")) :=
  (execute_failure_modes wRaise stHealthy ("echo") none none).2.2.2.2.2.1
    rfl (by decide) (by decide) (by decide) ("boom") rfl

/-- C7: construction-time validation raises `ValueError` (the spec calls it
ConfigurationError) for a transport kind outside stdio and http, for stdio
with an unset or empty command when the stdio library is available, and for
http with an unset or empty base URL when the HTTP library is available; it
raises the distinct `ImportError` (DependencyError) when the selected
transport library is unavailable — checked before the emptiness test — and
accepts every other configuration.  The embedding is a pure function of the
raw configuration, matching a source that performs no network or process
activity. -/
theorem validateConfig_classification (c : RawConfig) :
    (c.server_type ≠ "stdio" → c.server_type ≠ "http" →
      validateConfig c = .error (.valueError
        ("Invalid MCP_SERVER_TYPE: " ++ c.server_type
          ++ ". Must be \x27stdio\x27 or \x27http\x27"))) ∧
    (c.server_type = "stdio" → c.mcp_stdio_available = false →
      validateConfig c = .error (.importError
        ("MCP stdio client not available. Install with: pip install mcp"))) ∧
    (c.server_type = "stdio" → c.mcp_stdio_available = true →
      pyFalsyStr c.server_command = true →
      validateConfig c = .error (.valueError
        ("MCP_SERVER_COMMAND environment variable is required for stdio servers"))) ∧
    (c.server_type = "http" → c.mcp_http_available = false →
      validateConfig c = .error (.importError
        ("httpx not available. Install with: pip install httpx"))) ∧
    (c.server_type = "http" → c.mcp_http_available = true →
      pyFalsyStr c.server_url = true →
      validateConfig c = .error (.valueError
        ("MCP_SERVER_URL environment variable is required for HTTP servers"))) ∧
    (c.server_type = "stdio" → c.mcp_stdio_available = true →
      pyFalsyStr c.server_command = false → validateConfig c = .ok ()) ∧
    (c.server_type = "http" → c.mcp_http_available = true →
      pyFalsyStr c.server_url = false → validateConfig c = .ok ()) := by
  refine ⟨?_, ?_, ?_, ?_, ?_, ?_, ?_⟩
  · intro h1 h2
    unfold validateConfig
    rw [if_neg h1, if_neg h2]
  · intro h1 h2
    unfold validateConfig
    rw [if_pos h1, h2]
    simp
  · intro h1 h2 h3
    unfold validateConfig
    rw [if_pos h1, h2, h3]
    simp
  · intro h1 h2
    unfold validateConfig
    rw [if_neg (by rw [h1]; decide), if_pos h1, h2]
    simp
  · intro h1 h2 h3
    unfold validateConfig
    rw [if_neg (by rw [h1]; decide), if_pos h1, h2, h3]
    simp
  · intro h1 h2 h3
    unfold validateConfig
    rw [if_pos h1, h2, h3]
    simp
  · intro h1 h2 h3
    unfold validateConfig
    rw [if_neg (by rw [h1]; decide), if_pos h1, h2, h3]
    simp

/-- Witness for C7 at concrete configurations: an unsupported transport
kind is a `ValueError`, a missing stdio library is an `ImportError`, and a
well-formed stdio configuration validates. -/
theorem validateConfig_classification_witness :
    validateConfig ⟨"ftp", none, none, true, true⟩ =
      .error (.valueError
        ("Invalid MCP_SERVER_TYPE: " ++ "ftp"
          ++ ". Must be \x27stdio\x27 or \x27http\x27")) ∧
    validateConfig ⟨"stdio", some ("server"), none, false, true⟩ =
      .error (.importError
        ("MCP stdio client not available. Install with: pip install mcp")) ∧
    validateConfig ⟨"stdio", some ("server"), none, true, true⟩ = .ok () :=
  ⟨(validateConfig_classification ⟨"ftp", none, none, true, true⟩).1
      (by decide) (by decide),
   (validateConfig_classification ⟨"stdio", some ("server"), none, false, true⟩).2.1
      rfl rfl,
   (validateConfig_classification ⟨"stdio", some ("server"), none, true, true⟩).2.2.2.2.2.1
      rfl rfl rfl⟩

/-- C8: for every world, state, tool name and timeout, `execute` with
absent arguments returns exactly the same result, final state and trace as
`execute` with an explicit empty mapping — the null case is normalized to
the empty mapping before any downstream use. -/
theorem execute_none_args_eq_empty (w : World) (st : BridgeState) (name : String)
    (tmo : Option Int) :
    execute w st name none tmo = execute w st name (some []) tmo := rfl

/-- C9: `close` is total (the embedding has no exception channel: the pool
release is modelled as the non-raising idempotent operation it is), calling
it twice is the same as calling it once, and after each of the two calls
the health flag is unhealthy. -/
theorem close_twice_unhealthy (st : BridgeState) :
    (close st).connection_healthy = false ∧
    close (close st) = close st ∧
    (close (close st)).connection_healthy = false :=
  ⟨rfl, rfl, rfl⟩

/-- C10: a failed connect attempt — stdio or http, failing at transport
construction, handshake, the tool-list request, or on a malformed catalog
payload — leaves the previously discovered catalog unchanged; the catalog
is replaced wholesale exactly when the new tool list has been fully
received and parsed. -/
theorem connect_catalog_frame (o : StdioConnectOracle) (p : HttpConnectOracle)
    (st : BridgeState) :
    ((stdioConnect o st).1 = false →
      (stdioConnect o st).2.available_tools = st.available_tools) ∧
    (∀ ts, o.transportOk = true → o.initOk = true → o.listToolsResult = some ts →
      (stdioConnect o st).2.available_tools = mkCatalog ts) ∧
    ((httpConnect p st).1 = false →
      (httpConnect p st).2.available_tools = st.available_tools) ∧
    (∀ es ts, p.clientOk = true → p.listResult = some es →
      parseHttpEntries es = some ts →
      (httpConnect p st).2.available_tools = mkCatalog ts) := by
  refine ⟨?_, ?_, ?_, ?_⟩
  · intro h
    unfold stdioConnect at h ⊢
    rcases h1 : o.transportOk <;> rcases h2 : o.initOk <;>
      rcases h3 : o.listToolsResult <;> simp_all
  · intro ts h1 h2 h3
    unfold stdioConnect
    rw [h1, h2, h3]
    simp
  · intro h
    unfold httpConnect at h ⊢
    rcases h1 : p.clientOk <;> rcases h2 : p.listResult with _ | es <;> simp_all
    rcases h3 : parseHttpEntries es <;> simp_all
  · intro es ts h1 h2 h3
    unfold httpConnect
    rw [h1, h2]
    simp [h3]

/-- Witness for C10 at concrete attempts: a failing stdio attempt preserves
the catalog, a succeeding one replaces it with the parsed list. -/
theorem connect_catalog_frame_witness :
    (stdioConnect failStdioOracle stHealthy).2.available_tools
        = stHealthy.available_tools ∧
    (stdioConnect okStdioOracle stHealthy).2.available_tools
        = mkCatalog [⟨"echo", "Echo a message", "\x7b\x7d"⟩] :=
  ⟨(connect_catalog_frame failStdioOracle okHttpOracle stHealthy).1 (by decide),
   (connect_catalog_frame okStdioOracle okHttpOracle stHealthy).2.1
      [⟨"echo", "Echo a message", "\x7b\x7d"⟩] rfl rfl rfl⟩

end MCPBridge
